import Mathlib

/-!
Verification of the chat-overlay engine of src/src/bbbchatofx.cpp.

The development shallowly embeds the message store, the time-windowed
active-message query, the per-message animation curve, the layout
compositor bookkeeping, the surface lifecycle and the pixel-format
adapter.  C++ doubles are modelled as exact rationals, C++ int as Int.
The external collaborators (pugixml, Cairo, Pango, the OFX host) are
modelled as abstract data supplied by a Backend record, so the engine is
verified for every interpretation of those collaborators.
-/

/-- A chat entry: class ChatMessage of the source, fields m_time, m_user,
m_text (bbbchatofx.cpp lines 47 to 70). -/
structure ChatMessage where
  time : ℚ
  user : String
  text : String
deriving DecidableEq, Repr

/-- The ascending-timestamp ordering produced by sorting with the
operator< of ChatMessage (comparison of m_time, lines 84 to 100). -/
def SortedByTime (l : List ChatMessage) : Prop :=
  List.Sorted (fun a b : ChatMessage => a.time ≤ b.time) l

/-- Model of std::lower_bound over the message vector (render, line 339):
on a sequence partitioned by the predicate (time < t), lower_bound returns
the partition point, i.e. the suffix starting at the first element whose
timestamp is not below t. -/
def lowerBoundSuffix (l : List ChatMessage) (t : ℚ) : List ChatMessage :=
  l.dropWhile (fun m => decide (m.time < t))

/-- Model of std::upper_bound over the suffix returned by lower_bound
(render, line 340): it keeps exactly the elements before the first one
whose timestamp is strictly above t. -/
def upperBoundTake (l : List ChatMessage) (t : ℚ) : List ChatMessage :=
  l.takeWhile (fun m => decide (¬ t < m.time))

/-- The active range computed by ChatMessageRenderer::render
(lines 335 to 341): lower_bound at time_lo, then upper_bound at
time_hi restricted to the tail. -/
def activeMessages (l : List ChatMessage) (tlo thi : ℚ) : List ChatMessage :=
  upperBoundTake (lowerBoundSuffix l tlo) thi

/-- The per-message animation curve computed at the top of
ChatMessageRenderer::drawMessage (lines 277 to 288): alpha and progress
default to 1; before the hold point both ramp linearly with fade-in;
after the fade-out start only alpha ramps back down. -/
def messageAlpha (fi ho fo t0 t : ℚ) : ℚ × ℚ :=
  let t_hold := t0 + fi
  let t_fout := t0 + fi + ho
  if t < t_hold then ((t - t0) / fi, (t - t0) / fi)
  else if t_fout < t then (1 - (t - t_fout) / fo, 1)
  else (1, 1)

/-- State of class ChatMessageRenderer (lines 131 to 182).  The payloads
of the Cairo surface, the Cairo context and the Pango layout are the
abstract types S, C and L: the engine never inspects them, it only
creates, clears, draws into and releases them through the backend. -/
structure ChatMessageRenderer (S C L : Type) where
  messages : List ChatMessage
  surface : Option S
  context : Option C
  layout : Option L
  width : Int
  height : Int
  margin : Int
  color_bg : Fin 4 → ℚ
  color_user : Fin 3 → ℚ
  color_text : Fin 3 → ℚ
  fade_in_time : ℚ
  hold_time : ℚ
  fade_out_time : ℚ

/-- ChatMessageRenderer::drawRelease (lines 239 to 246): drops the
layout, the context and the surface. -/
def drawRelease {S C L : Type} (st : ChatMessageRenderer S C L) :
    ChatMessageRenderer S C L :=
  { st with layout := none, context := none, surface := none }

/-- setWidth (line 163): on an actual change, store the value and
release the drawing objects. -/
def setWidth {S C L : Type} (st : ChatMessageRenderer S C L) (w : Int) :
    ChatMessageRenderer S C L :=
  if st.width ≠ w then drawRelease { st with width := w } else st

/-- setHeight (line 164). -/
def setHeight {S C L : Type} (st : ChatMessageRenderer S C L) (h : Int) :
    ChatMessageRenderer S C L :=
  if st.height ≠ h then drawRelease { st with height := h } else st

/-- setMargin (line 165). -/
def setMargin {S C L : Type} (st : ChatMessageRenderer S C L) (m : Int) :
    ChatMessageRenderer S C L :=
  if st.margin ≠ m then drawRelease { st with margin := m } else st

/-- setColorBackground (line 170): copies the four components. -/
def setColorBackground {S C L : Type} (st : ChatMessageRenderer S C L)
    (c : Fin 4 → ℚ) : ChatMessageRenderer S C L :=
  { st with color_bg := c }

/-- setColorUser (line 171). -/
def setColorUser {S C L : Type} (st : ChatMessageRenderer S C L)
    (c : Fin 3 → ℚ) : ChatMessageRenderer S C L :=
  { st with color_user := c }

/-- setColorText (line 172). -/
def setColorText {S C L : Type} (st : ChatMessageRenderer S C L)
    (c : Fin 3 → ℚ) : ChatMessageRenderer S C L :=
  { st with color_text := c }

/-- setFadeInTime (line 174). -/
def setFadeInTime {S C L : Type} (st : ChatMessageRenderer S C L) (t : ℚ) :
    ChatMessageRenderer S C L :=
  { st with fade_in_time := t }

/-- setHoldTime (line 175). -/
def setHoldTime {S C L : Type} (st : ChatMessageRenderer S C L) (t : ℚ) :
    ChatMessageRenderer S C L :=
  { st with hold_time := t }

/-- setFadeOutTime (line 176). -/
def setFadeOutTime {S C L : Type} (st : ChatMessageRenderer S C L) (t : ℚ) :
    ChatMessageRenderer S C L :=
  { st with fade_out_time := t }

/-- setMessages (line 161). -/
def setMessages {S C L : Type} (st : ChatMessageRenderer S C L)
    (msgs : List ChatMessage) : ChatMessageRenderer S C L :=
  { st with messages := msgs }

/-- The external collaborators used while drawing: surface allocation
and clearing (Cairo), layout creation (Pango), text measurement
(Pango::Layout::get_size after set_markup, so it may depend on the
message and on the alpha baked into the markup), and the painting of one
message bubble (drawBackground plus show_in_cairo_context). -/
structure Backend (S C L : Type) where
  createSurface : Int → Int → S
  createContext : S → C
  createLayout : C → Int → Int → L
  clearSurface : S → S
  measureHeight : ChatMessage → ℚ → Int
  drawMsg : S → ChatMessage → ℚ → Int → S

/-- ChatMessageRenderer::drawInit (lines 199 to 237): with no surface,
create surface, context and layout (the layout width and height are the
render size minus twice the margin); with a surface present, clear it
and keep the existing objects. -/
def drawInit {S C L : Type} (bk : Backend S C L)
    (st : ChatMessageRenderer S C L) : S × C × L :=
  match st.surface, st.context, st.layout with
  | some s, some c, some l => (bk.clearSurface s, c, l)
  | _, _, _ =>
    let s := bk.createSurface st.width st.height
    let c := bk.createContext s
    let l := bk.createLayout c (st.width - 2 * st.margin) (st.height - 2 * st.margin)
    (s, c, l)

/-- The C library round applied to a nonnegative-or-negative rational,
followed by the exact cast to int of render (line 369): halves round
away from zero. -/
def cround (q : ℚ) : Int :=
  if 0 ≤ q then ⌊q + 1 / 2⌋ else ⌈q - 1 / 2⌉

/-- The animation window used by render (line 336): fade-in plus hold
plus fade-out. -/
def animWindow {S C L : Type} (st : ChatMessageRenderer S C L) : ℚ :=
  st.fade_in_time + st.hold_time + st.fade_out_time

/-- The pure part of ChatMessageRenderer::drawMessage (lines 274 to
330): the used vertical space (0 when the message is skipped as too
transparent, measured text height plus three margins otherwise) and the
progress weight. -/
def msgHeightProg (measure : ChatMessage → ℚ → Int) (margin : Int)
    (fi ho fo t : ℚ) (msg : ChatMessage) : Int × ℚ :=
  let ap := messageAlpha fi ho fo msg.time t
  if ap.1 ≤ 1 / 255 then (0, ap.2)
  else (measure msg ap.1 + 3 * margin, ap.2)

/-- One iteration of the render loop (lines 357 to 364): draw the
message unless skipped, advance the cursor by the used height, and
accumulate progress times height into the running total. -/
def renderStep {S C L : Type} (bk : Backend S C L)
    (st : ChatMessageRenderer S C L) (time : ℚ)
    (acc : S × Int × ℚ) (msg : ChatMessage) : S × Int × ℚ :=
  let alpha := (messageAlpha st.fade_in_time st.hold_time st.fade_out_time
    msg.time time).1
  let hp := msgHeightProg bk.measureHeight st.margin st.fade_in_time
    st.hold_time st.fade_out_time time msg
  let surf := if alpha ≤ 1 / 255 then acc.1 else bk.drawMsg acc.1 msg alpha acc.2.1
  (surf, acc.2.1 + hp.1, acc.2.2 + hp.2 * (hp.1 : ℚ))

/-- Result of ChatMessageRenderer::render: the updated renderer state,
the returned occupied height, and the final vertical cursor offset
accumulated by the translate calls. -/
structure RenderOut (S C L : Type) where
  state : ChatMessageRenderer S C L
  result : Int
  cursorY : Int

/-- ChatMessageRenderer::render (lines 332 to 370): query the active
range, return 0 untouched when it is empty, otherwise set up the
drawing objects, iterate the active messages accumulating the weighted
total height, and return its rounded value. -/
def render {S C L : Type} (bk : Backend S C L)
    (st : ChatMessageRenderer S C L) (time : ℚ) : RenderOut S C L :=
  let act := activeMessages st.messages (time - animWindow st) time
  if act.isEmpty then ⟨st, 0, 0⟩
  else
    let scl := drawInit bk st
    let fin := act.foldl (renderStep bk st time) (scl.1, 0, 0)
    let st2 := { st with surface := some fin.1, context := some scl.2.1, layout := some scl.2.2 }
    ⟨st2, cround fin.2.2, fin.2.1⟩

/-- A trivial interpretation of the drawing collaborators, used to
instantiate the generic theorems on concrete inputs. -/
def flatBackend (measure : ChatMessage → ℚ → Int) : Backend Unit Unit Unit :=
  { createSurface := fun _ _ => (), createContext := fun _ => (),
    createLayout := fun _ _ _ => (), clearSurface := fun _ => (),
    measureHeight := measure, drawMsg := fun _ _ _ _ => () }

/-- A concrete renderer state holding one message, with the default
configuration of the source (640 by 360, margin 10, timings 1, 15, 1). -/
def oneMsgState : ChatMessageRenderer Unit Unit Unit :=
  { messages := [⟨0, "a", "hi"⟩], surface := none, context := none,
    layout := none, width := 640, height := 360, margin := 10,
    color_bg := fun _ => 1/2, color_user := fun _ => 0,
    color_text := fun _ => 0,
    fade_in_time := 1, hold_time := 15, fade_out_time := 1 }

/-- A concrete renderer state with an empty store. -/
def emptyStoreState : ChatMessageRenderer Unit Unit Unit :=
  { oneMsgState with messages := [] }

/-- The sort call of loadFromFile (line 120), which orders the parsed
entries ascending by m_time through the operator< of ChatMessage.
Modelled as insertion sort with the timestamp comparison; ties keep an
unspecified relative order in both the source and the model. -/
def sortByTime (l : List ChatMessage) : List ChatMessage :=
  List.insertionSort (fun a b : ChatMessage => a.time ≤ b.time) l

/-- ChatMessage::loadFromFile (lines 103 to 123).  The XML layer
(pugixml) is out of scope and is modelled by its observable result:
none when the file is missing or cannot be parsed or has no popcorn
root element (pugixml then yields an empty document, hence no child to
iterate), some list of (in, name, message) attribute triples otherwise.
The children are converted in document order and sorted defensively by
timestamp. -/
def loadFromFile (doc : Option (List (ℚ × String × String))) :
    List ChatMessage :=
  sortByTime ((doc.getD []).map fun r => ⟨r.1, r.2.1, r.2.2⟩)

/-- doReloadMessages (lines 475 to 494): replace the whole store with
the freshly loaded list; an exception while loading yields the empty
store, which coincides with loadFromFile applied to a failed parse. -/
def doReloadMessages {S C L : Type} (st : ChatMessageRenderer S C L)
    (doc : Option (List (ℚ × String × String))) :
    ChatMessageRenderer S C L :=
  setMessages st (loadFromFile doc)

/-- A pixel buffer addressed by destination row, column and channel.
In the byte arrays of effectRender channel c of column x of row y lives
at offset y times stride plus 4 x plus c; the model addresses the same
bytes by coordinates. -/
abbrev Image := Int → Int → Fin 4 → ℕ

/-- struct OfxRectI: fields x1, y1, x2, y2. -/
structure OfxRectI where
  x1 : Int
  y1 : Int
  x2 : Int
  y2 : Int

/-- clipRectI (lines 990 to 997): intersect r1 with r2 componentwise. -/
def clipRectI (r1 r2 : OfxRectI) : OfxRectI :=
  { x1 := max r1.x1 r2.x1, y1 := max r1.y1 r2.y1,
    x2 := min r1.x2 r2.x2, y2 := min r1.y2 r2.y2 }

/-- The source channel feeding each destination channel in the inner
copy loop (lines 1079 to 1082): channels 0 and 2 are swapped, channels
1 and 3 are copied through. -/
def srcChan : Fin 4 → Fin 4
  | 0 => 2
  | 1 => 1
  | 2 => 0
  | 3 => 3

/-- One destination pixel write (the four assignments of the inner
loop body). -/
def writePix (dst : Image) (y x : Int) (v : Fin 4 → ℕ) : Image :=
  fun ya xa c => if ya = y ∧ xa = x then v c else dst ya xa c

/-- The inner x loop of the copy (lines 1078 to 1085): n columns
starting at column x of destination row y, reading source row sy. -/
def copyColsLoop (src : Image) (sy y : Int) : Image → Int → Nat → Image
  | dst, _, 0 => dst
  | dst, x, n+1 =>
    copyColsLoop src sy y (writePix dst y x fun c => src sy x (srcChan c)) (x+1) n

/-- The outer y loop of the copy (lines 1074 to 1088): n rows starting
at destination row y.  The source row for destination row y is
h - y - 1: the in_data pointer starts at row h - y1 - 1 (line 1071)
and is decremented by one stride per destination row (line 1086). -/
def copyRowsLoop (src : Image) (h x1 : Int) (ncols : Nat) :
    Image → Int → Nat → Image
  | dst, _, 0 => dst
  | dst, y, n+1 =>
    copyRowsLoop src h x1 ncols
      (copyColsLoop src (h - y - 1) y dst x1 ncols) (y+1) n

/-- The copy-out of effectRender for occupied height h (lines 1059 to
1088): clip the render window against the painted rectangle from 0 to
width by 0 to h, then copy the clipped rows. -/
def copyOut (src dst : Image) (width h : Int) (rRender : OfxRectI) : Image :=
  let r := clipRectI rRender { x1 := 0, y1 := 0, x2 := width, y2 := h }
  copyRowsLoop src h r.x1 (r.x2 - r.x1).toNat dst r.y1 (r.y2 - r.y1).toNat

/-- The adapter phase of effectRender: the copy only runs when render
returned a positive occupied height (line 1058), otherwise the
destination is left as is. -/
def effectCopyPhase (src dst : Image) (width h : Int)
    (rRender : OfxRectI) : Image :=
  if 0 < h then copyOut src dst width h rRender else dst

/-- A concrete source buffer used to instantiate the adapter claims. -/
def srcSample : Image := fun y x c => (100 * y + 10 * x).toNat + c.val

/-- A concrete zeroed destination buffer. -/
def dstSample : Image := fun _ _ _ => 0

theorem sortedByTime_cons {m : ChatMessage} {l : List ChatMessage}
    (h : SortedByTime (m :: l)) :
    (∀ a ∈ l, m.time ≤ a.time) ∧ SortedByTime l := by
  unfold SortedByTime List.Sorted at *
  rw [List.pairwise_cons] at h
  exact h

theorem upperBoundTake_eq_filter (thi : ℚ) :
    ∀ l : List ChatMessage, SortedByTime l →
      upperBoundTake l thi = l.filter (fun m => decide (m.time ≤ thi)) := by
  intro l
  induction l with
  | nil => intro _; rfl
  | cons m l ih =>
    intro hs
    obtain ⟨hm, hl⟩ := sortedByTime_cons hs
    by_cases hle : m.time ≤ thi
    · rw [upperBoundTake, List.takeWhile_cons_of_pos (by simpa using not_lt.mpr hle),
        List.filter_cons_of_pos (by simpa using hle)]
      exact congrArg (m :: ·) (ih hl)
    · rw [upperBoundTake, List.takeWhile_cons_of_neg (by simpa using hle),
        List.filter_cons_of_neg (by simpa using hle)]
      symm
      rw [List.filter_eq_nil_iff]
      intro a ha
      have : thi < m.time := not_le.mp hle
      have : thi < a.time := lt_of_lt_of_le this (hm a ha)
      simpa using not_le.mpr this

theorem activeMessages_eq_filter (tlo thi : ℚ) :
    ∀ l : List ChatMessage, SortedByTime l →
      activeMessages l tlo thi
        = l.filter (fun m => decide (tlo ≤ m.time) && decide (m.time ≤ thi)) := by
  intro l
  induction l with
  | nil => intro _; rfl
  | cons m l ih =>
    intro hs
    obtain ⟨hm, hl⟩ := sortedByTime_cons hs
    by_cases hlo : m.time < tlo
    · rw [activeMessages, lowerBoundSuffix, List.dropWhile_cons]
      simp only [decide_eq_true_eq, hlo, if_pos]
      rw [List.filter_cons_of_neg (by simp [not_le.mpr hlo])]
      exact ih hl
    · have hge : tlo ≤ m.time := not_lt.mp hlo
      have hdrop : activeMessages (m :: l) tlo thi = upperBoundTake (m :: l) thi := by
        rw [activeMessages, lowerBoundSuffix, List.dropWhile_cons]
        simp [hlo]
      rw [hdrop, upperBoundTake_eq_filter thi (m :: l) hs]
      apply List.filter_congr
      intro a ha
      have : tlo ≤ a.time := by
        rcases List.mem_cons.mp ha with h | h
        · exact h ▸ hge
        · exact le_trans hge (hm a h)
      simp [this]

/-- Claim C1: for a message store sorted ascending by timestamp, the
active range computed by render via lower_bound at t - window and
upper_bound at t contains exactly the entries whose timestamp lies in
the closed interval from t - window to t, i.e. it equals a brute-force
linear scan of the store. -/
theorem activeMessages_eq_linear_scan
    (l : List ChatMessage) (t window : ℚ) (hs : SortedByTime l) :
    activeMessages l (t - window) t
      = l.filter (fun m => decide (t - window ≤ m.time) && decide (m.time ≤ t)) :=
  activeMessages_eq_filter (t - window) t l hs

theorem activeMessages_eq_linear_scan_witness :
    SortedByTime [⟨0, "a", "hi"⟩, ⟨5, "b", "yo"⟩] ∧
      activeMessages [⟨0, "a", "hi"⟩, ⟨5, "b", "yo"⟩] (6 - 2) 6
        = List.filter (fun m => decide ((6:ℚ) - 2 ≤ m.time) && decide (m.time ≤ 6))
            [⟨0, "a", "hi"⟩, ⟨5, "b", "yo"⟩] :=
  ⟨by unfold SortedByTime; decide,
   activeMessages_eq_linear_scan [⟨0, "a", "hi"⟩, ⟨5, "b", "yo"⟩] 6 2
     (by unfold SortedByTime; decide)⟩

/-- Claim C2: for fadeIn > 0, hold >= 0, fadeOut > 0 the values computed
by drawMessage match the three-phase piecewise curve of the spec, and in
particular alpha at the message timestamp is 0 and alpha at the end of
fade-in is 1. -/
theorem messageAlpha_matches_curve
    (fi ho fo t0 t : ℚ) (hfi : 0 < fi) (hho : 0 ≤ ho) (hfo : 0 < fo) :
    (t < t0 + fi → messageAlpha fi ho fo t0 t = ((t - t0) / fi, (t - t0) / fi)) ∧
    (t0 + fi ≤ t → t ≤ t0 + fi + ho → messageAlpha fi ho fo t0 t = (1, 1)) ∧
    (t0 + fi + ho < t →
      messageAlpha fi ho fo t0 t = (1 - (t - (t0 + fi + ho)) / fo, 1)) ∧
    (messageAlpha fi ho fo t0 t0).1 = 0 ∧
    (messageAlpha fi ho fo t0 (t0 + fi)).1 = 1 := by
  refine ⟨?_, ?_, ?_, ?_, ?_⟩
  · intro h
    rw [messageAlpha]
    simp only [if_pos h]
  · intro h1 h2
    rw [messageAlpha]
    simp [not_lt.mpr h1, not_lt.mpr h2]
  · intro h
    have h1 : ¬ t < t0 + fi := not_lt.mpr (le_trans (by linarith) (le_of_lt h))
    rw [messageAlpha]
    simp [h1, h]
  · rw [messageAlpha]
    have h : t0 < t0 + fi := by linarith
    simp [h]
  · rw [messageAlpha]
    have h1 : ¬ t0 + fi < t0 + fi := lt_irrefl _
    have h2 : ¬ t0 + fi + ho < t0 + fi := by linarith
    simp [h1, h2]

theorem messageAlpha_matches_curve_witness :
    (0:ℚ) < 1 ∧ (0:ℚ) ≤ 15 ∧ (0:ℚ) < 1 ∧
      messageAlpha 1 15 1 0 (1/2) = (1/2, 1/2) := by
  refine ⟨by norm_num, by norm_num, by norm_num, ?_⟩
  have h := (messageAlpha_matches_curve 1 15 1 0 (1/2)
    (by norm_num) (by norm_num) (by norm_num)).1 (by norm_num)
  rw [h]
  norm_num

theorem renderStep_foldl {S C L : Type} (bk : Backend S C L)
    (st : ChatMessageRenderer S C L) (time : ℚ) :
    ∀ (l : List ChatMessage) (a : S × Int × ℚ),
      (l.foldl (renderStep bk st time) a).2.1
          = a.2.1 + (l.map (fun m => (msgHeightProg bk.measureHeight st.margin
              st.fade_in_time st.hold_time st.fade_out_time time m).1)).sum
        ∧ (l.foldl (renderStep bk st time) a).2.2
          = a.2.2 + (l.map (fun m =>
              (msgHeightProg bk.measureHeight st.margin st.fade_in_time
                st.hold_time st.fade_out_time time m).2
              * ((msgHeightProg bk.measureHeight st.margin st.fade_in_time
                  st.hold_time st.fade_out_time time m).1 : ℚ))).sum := by
  intro l
  induction l with
  | nil => intro a; simp
  | cons m l ih =>
    intro a
    simp only [List.foldl_cons, List.map_cons, List.sum_cons]
    obtain ⟨ih1, ih2⟩ := ih (renderStep bk st time a m)
    constructor
    · rw [ih1]
      simp only [renderStep]
      ring
    · rw [ih2]
      simp only [renderStep]
      ring

/-- Claim C3: with a non-empty active range, render returns the rounding
of the sum over the active messages, in ascending timestamp order, of
progress times (measured text height plus three margins); a message whose
alpha is at most 1/255 gets height 0 and contributes zero to the sum;
and the drawing cursor ends at the sum of the per-message advances. -/
theorem render_occupied_height_sum {S C L : Type} (bk : Backend S C L)
    (st : ChatMessageRenderer S C L) (time : ℚ)
    (hne : (activeMessages st.messages (time - animWindow st) time).isEmpty = false) :
    (render bk st time).result
        = cround (((activeMessages st.messages (time - animWindow st) time).map
            (fun m => (msgHeightProg bk.measureHeight st.margin st.fade_in_time
                st.hold_time st.fade_out_time time m).2
              * ((msgHeightProg bk.measureHeight st.margin st.fade_in_time
                  st.hold_time st.fade_out_time time m).1 : ℚ))).sum)
      ∧ (∀ m ∈ activeMessages st.messages (time - animWindow st) time,
          (messageAlpha st.fade_in_time st.hold_time st.fade_out_time m.time time).1
              ≤ 1 / 255 →
            (msgHeightProg bk.measureHeight st.margin st.fade_in_time
              st.hold_time st.fade_out_time time m).1 = 0)
      ∧ (render bk st time).cursorY
        = ((activeMessages st.messages (time - animWindow st) time).map
            (fun m => (msgHeightProg bk.measureHeight st.margin st.fade_in_time
                st.hold_time st.fade_out_time time m).1)).sum := by
  have hfold := renderStep_foldl bk st time
    (activeMessages st.messages (time - animWindow st) time)
    ((drawInit bk st).1, 0, 0)
  refine ⟨?_, ?_, ?_⟩
  · rw [render]
    simp only [hne, Bool.false_eq_true, if_false]
    rw [hfold.2]
    norm_num
  · intro m _ halpha
    rw [msgHeightProg]
    simp only [halpha, if_pos]
  · rw [render]
    simp only [hne, Bool.false_eq_true, if_false]
    rw [hfold.1]
    norm_num

theorem render_occupied_height_sum_witness :
    (activeMessages oneMsgState.messages (2 - animWindow oneMsgState) 2).isEmpty
        = false ∧
      (render (flatBackend fun _ _ => 20) oneMsgState 2).result
        = cround (((activeMessages oneMsgState.messages
            (2 - animWindow oneMsgState) 2).map
            (fun m => (msgHeightProg (flatBackend fun _ _ => 20).measureHeight
                oneMsgState.margin oneMsgState.fade_in_time
                oneMsgState.hold_time oneMsgState.fade_out_time 2 m).2
              * ((msgHeightProg (flatBackend fun _ _ => 20).measureHeight
                  oneMsgState.margin oneMsgState.fade_in_time
                  oneMsgState.hold_time oneMsgState.fade_out_time 2 m).1 : ℚ))).sum) := by
  have hne : (activeMessages oneMsgState.messages
      (2 - animWindow oneMsgState) 2).isEmpty = false := by
    norm_num [activeMessages, lowerBoundSuffix, upperBoundTake, oneMsgState,
      animWindow, List.dropWhile_cons, List.takeWhile_cons]
  exact ⟨hne,
    (render_occupied_height_sum (flatBackend fun _ _ => 20) oneMsgState 2 hne).1⟩

/-- Claim C4: when the active range is empty, in particular whenever the
message store is empty, render returns 0 and the renderer state is left
entirely unchanged: no surface is created, and existing surface
contents, context and layout stay as they were. -/
theorem render_inactive_untouched {S C L : Type} (bk : Backend S C L)
    (st : ChatMessageRenderer S C L) (time : ℚ)
    (h : st.messages = []
      ∨ activeMessages st.messages (time - animWindow st) time = []) :
    render bk st time = ⟨st, 0, 0⟩ := by
  have hact : activeMessages st.messages (time - animWindow st) time = [] := by
    rcases h with h | h
    · rw [h]; rfl
    · exact h
  rw [render]
  simp only [hact, List.isEmpty_nil, if_true]

theorem render_inactive_untouched_witness :
    emptyStoreState.messages = [] ∧
      render (flatBackend fun _ _ => 20) emptyStoreState 5
        = ⟨emptyStoreState, 0, 0⟩ :=
  ⟨rfl, render_inactive_untouched (flatBackend fun _ _ => 20) emptyStoreState 5
    (Or.inl rfl)⟩

/-- Claim C5: for a message inside the active window and a configuration
with fadeIn > 0, hold >= 0, fadeOut > 0, the alpha used to tint the text
color lies in the unit interval, and so does the background alpha, the
configured background opacity (itself in the unit interval) scaled by
alpha, even though drawMessage applies no explicit clamping. -/
theorem alpha_tint_in_unit_interval (fi ho fo t0 t bgA : ℚ)
    (hfi : 0 < fi) (hho : 0 ≤ ho) (hfo : 0 < fo)
    (hlo : t - (fi + ho + fo) ≤ t0) (hhi : t0 ≤ t)
    (hbg0 : 0 ≤ bgA) (hbg1 : bgA ≤ 1) :
    0 ≤ (messageAlpha fi ho fo t0 t).1 ∧ (messageAlpha fi ho fo t0 t).1 ≤ 1 ∧
      0 ≤ bgA * (messageAlpha fi ho fo t0 t).1 ∧
      bgA * (messageAlpha fi ho fo t0 t).1 ≤ 1 := by
  have h01 : 0 ≤ (messageAlpha fi ho fo t0 t).1
      ∧ (messageAlpha fi ho fo t0 t).1 ≤ 1 := by
    rw [messageAlpha]
    split_ifs with h1 h2
    · dsimp only
      constructor
      · exact div_nonneg (by linarith) (le_of_lt hfi)
      · rw [div_le_one hfi]
        linarith
    · dsimp only
      constructor
      · have : (t - (t0 + fi + ho)) / fo ≤ 1 := by
          rw [div_le_one hfo]
          linarith
        linarith
      · have : 0 ≤ (t - (t0 + fi + ho)) / fo :=
          div_nonneg (by linarith) (le_of_lt hfo)
        linarith
    · exact ⟨by norm_num, le_refl 1⟩
  refine ⟨h01.1, h01.2, mul_nonneg hbg0 h01.1, ?_⟩
  calc bgA * (messageAlpha fi ho fo t0 t).1
      ≤ 1 * 1 := mul_le_mul hbg1 h01.2 h01.1 (by norm_num)
    _ = 1 := one_mul 1

theorem alpha_tint_in_unit_interval_witness :
    (0:ℚ) < 1 ∧ (0:ℚ) ≤ 15 ∧ (0:ℚ) < 1 ∧
      (10:ℚ) - (1 + 15 + 1) ≤ 0 ∧ (0:ℚ) ≤ 10 ∧ (0:ℚ) ≤ 1/2 ∧ (1:ℚ)/2 ≤ 1 ∧
      0 ≤ (messageAlpha 1 15 1 0 10).1 ∧ (messageAlpha 1 15 1 0 10).1 ≤ 1 ∧
      0 ≤ 1/2 * (messageAlpha 1 15 1 0 10).1 ∧
      1/2 * (messageAlpha 1 15 1 0 10).1 ≤ 1 := by
  have h := alpha_tint_in_unit_interval 1 15 1 0 10 (1/2) (by norm_num)
    (by norm_num) (by norm_num) (by norm_num) (by norm_num) (by norm_num)
    (by norm_num)
  exact ⟨by norm_num, by norm_num, by norm_num, by norm_num, by norm_num,
    by norm_num, by norm_num, h.1, h.2.1, h.2.2.1, h.2.2.2⟩

/-- Claim C9: setWidth, setHeight and setMargin release the owned
surface, context and layout exactly when the new value differs from the
stored one, and are the identity otherwise; the color and timing setters
never touch the surface, the context or the layout. -/
theorem setters_surface_invalidation {S C L : Type}
    (st : ChatMessageRenderer S C L) (w h m : Int)
    (c4 : Fin 4 → ℚ) (c3 c3a : Fin 3 → ℚ) (t1 t2 t3 : ℚ) :
    ((setWidth st w).surface = if st.width = w then st.surface else none) ∧
    ((setWidth st w).context = if st.width = w then st.context else none) ∧
    ((setWidth st w).layout = if st.width = w then st.layout else none) ∧
    ((setHeight st h).surface = if st.height = h then st.surface else none) ∧
    ((setHeight st h).context = if st.height = h then st.context else none) ∧
    ((setHeight st h).layout = if st.height = h then st.layout else none) ∧
    ((setMargin st m).surface = if st.margin = m then st.surface else none) ∧
    ((setMargin st m).context = if st.margin = m then st.context else none) ∧
    ((setMargin st m).layout = if st.margin = m then st.layout else none) ∧
    setWidth st st.width = st ∧
    setHeight st st.height = st ∧
    setMargin st st.margin = st ∧
    (setColorBackground st c4).surface = st.surface ∧
    (setColorBackground st c4).context = st.context ∧
    (setColorBackground st c4).layout = st.layout ∧
    (setColorUser st c3).surface = st.surface ∧
    (setColorUser st c3).context = st.context ∧
    (setColorUser st c3).layout = st.layout ∧
    (setColorText st c3a).surface = st.surface ∧
    (setColorText st c3a).context = st.context ∧
    (setColorText st c3a).layout = st.layout ∧
    (setFadeInTime st t1).surface = st.surface ∧
    (setFadeInTime st t1).context = st.context ∧
    (setFadeInTime st t1).layout = st.layout ∧
    (setHoldTime st t2).surface = st.surface ∧
    (setHoldTime st t2).context = st.context ∧
    (setHoldTime st t2).layout = st.layout ∧
    (setFadeOutTime st t3).surface = st.surface ∧
    (setFadeOutTime st t3).context = st.context ∧
    (setFadeOutTime st t3).layout = st.layout := by
  refine ⟨?_, ?_, ?_, ?_, ?_, ?_, ?_, ?_, ?_, ?_, ?_, ?_, rfl, rfl, rfl, rfl,
    rfl, rfl, rfl, rfl, rfl, rfl, rfl, rfl, rfl, rfl, rfl, rfl, rfl, rfl⟩
  all_goals
    simp only [setWidth, setHeight, setMargin, drawRelease, ne_eq, ite_not]
  all_goals split_ifs with hc
  all_goals simp_all

theorem sortByTime_sorted (l : List ChatMessage) :
    SortedByTime (sortByTime l) := by
  haveI : IsTotal ChatMessage (fun a b => a.time ≤ b.time) :=
    ⟨fun a b => le_total a.time b.time⟩
  haveI : IsTrans ChatMessage (fun a b => a.time ≤ b.time) :=
    ⟨fun _ _ _ hab hbc => le_trans hab hbc⟩
  exact List.sorted_insertionSort _ l

/-- Claim C6: loadFromFile always returns a store sorted ascending by
timestamp (a permutation of the parsed entries), returns the empty
sequence on any load failure, and consequently the message store is
sorted after every reload. -/
theorem loadFromFile_sorted_and_safe {S C L : Type}
    (doc : Option (List (ℚ × String × String)))
    (st : ChatMessageRenderer S C L) :
    SortedByTime (loadFromFile doc) ∧
    List.Perm (loadFromFile doc)
      ((doc.getD []).map fun r => ChatMessage.mk r.1 r.2.1 r.2.2) ∧
    loadFromFile none = [] ∧
    (doReloadMessages st doc).messages = loadFromFile doc ∧
    SortedByTime (doReloadMessages st doc).messages :=
  ⟨sortByTime_sorted _, List.perm_insertionSort _ _, rfl, rfl,
    sortByTime_sorted _⟩

theorem copyColsLoop_get (src : Image) (sy y : Int) :
    ∀ (n : Nat) (dst : Image) (x0 ya xa : Int) (c : Fin 4),
      copyColsLoop src sy y dst x0 n ya xa c
        = if ya = y ∧ x0 ≤ xa ∧ xa < x0 + n then src sy xa (srcChan c)
          else dst ya xa c := by
  intro n
  induction n with
  | zero =>
    intro dst x0 ya xa c
    rw [copyColsLoop, if_neg]
    rintro ⟨_, h2, h3⟩
    omega
  | succ n ih =>
    intro dst x0 ya xa c
    rw [copyColsLoop, ih]
    simp only [writePix]
    by_cases hy : ya = y
    · subst hy
      by_cases hx : xa = x0
      · subst hx
        rw [if_neg (by omega), if_pos ⟨rfl, rfl⟩, if_pos ⟨rfl, by omega, by omega⟩]
      · by_cases hrange : x0 + 1 ≤ xa ∧ xa < x0 + 1 + n
        · rw [if_pos ⟨rfl, hrange.1, hrange.2⟩, if_pos ⟨rfl, by omega, by omega⟩]
        · rw [if_neg (by tauto), if_neg (by tauto), if_neg (by omega)]
    · rw [if_neg (by tauto), if_neg (by tauto), if_neg (by tauto)]

theorem copyRowsLoop_get (src : Image) (h x1 : Int) (ncols : Nat) :
    ∀ (n : Nat) (dst : Image) (y0 ya xa : Int) (c : Fin 4),
      copyRowsLoop src h x1 ncols dst y0 n ya xa c
        = if y0 ≤ ya ∧ ya < y0 + n ∧ x1 ≤ xa ∧ xa < x1 + ncols
          then src (h - ya - 1) xa (srcChan c)
          else dst ya xa c := by
  intro n
  induction n with
  | zero =>
    intro dst y0 ya xa c
    rw [copyRowsLoop, if_neg]
    rintro ⟨h1, h2, _⟩
    omega
  | succ n ih =>
    intro dst y0 ya xa c
    rw [copyRowsLoop, ih, copyColsLoop_get]
    by_cases hy : ya = y0
    · subst hy
      by_cases hx : x1 ≤ xa ∧ xa < x1 + ncols
      · rw [if_neg (by omega), if_pos ⟨rfl, hx.1, hx.2⟩,
          if_pos ⟨by omega, by omega, hx.1, hx.2⟩]
      · rw [if_neg (by omega), if_neg (by tauto), if_neg (by tauto)]
    · by_cases hrange : y0 + 1 ≤ ya ∧ ya < y0 + 1 + n ∧ x1 ≤ xa ∧ xa < x1 + ncols
      · rw [if_pos ⟨hrange.1, hrange.2.1, hrange.2.2⟩,
          if_pos ⟨by omega, by omega, hrange.2.2.1, hrange.2.2.2⟩]
      · rw [if_neg (by tauto), if_neg (by tauto), if_neg (by omega)]

/-- Claim C7: after a render returning occupied height h > 0, a
destination pixel at row y and column x inside the clipped rectangle is
read from source row h - y - 1 at the same column, with channels 0 and
2 swapped and channels 1 and 3 copied unchanged. -/
theorem copyOut_pixel_mapping (src dst : Image) (width h : Int)
    (rRender : OfxRectI) (y x : Int) (hh : 0 < h)
    (hy1 : (clipRectI rRender ⟨0, 0, width, h⟩).y1 ≤ y)
    (hy2 : y < (clipRectI rRender ⟨0, 0, width, h⟩).y2)
    (hx1 : (clipRectI rRender ⟨0, 0, width, h⟩).x1 ≤ x)
    (hx2 : x < (clipRectI rRender ⟨0, 0, width, h⟩).x2) :
    effectCopyPhase src dst width h rRender y x 0 = src (h - y - 1) x 2 ∧
    effectCopyPhase src dst width h rRender y x 1 = src (h - y - 1) x 1 ∧
    effectCopyPhase src dst width h rRender y x 2 = src (h - y - 1) x 0 ∧
    effectCopyPhase src dst width h rRender y x 3 = src (h - y - 1) x 3 := by
  have key : ∀ c : Fin 4,
      effectCopyPhase src dst width h rRender y x c
        = src (h - y - 1) x (srcChan c) := by
    intro c
    rw [effectCopyPhase, if_pos hh]
    simp only [copyOut]
    rw [copyRowsLoop_get, if_pos]
    refine ⟨hy1, ?_, hx1, ?_⟩
    · simp only [clipRectI] at hy1 hy2 ⊢
      omega
    · simp only [clipRectI] at hx1 hx2 ⊢
      omega
  exact ⟨key 0, key 1, key 2, key 3⟩

theorem copyOut_pixel_mapping_witness :
    (0:Int) < 2 ∧
    (clipRectI ⟨0, 0, 2, 2⟩ ⟨0, 0, 2, 2⟩).y1 ≤ 0 ∧
    (0:Int) < (clipRectI ⟨0, 0, 2, 2⟩ ⟨0, 0, 2, 2⟩).y2 ∧
    (clipRectI ⟨0, 0, 2, 2⟩ ⟨0, 0, 2, 2⟩).x1 ≤ 1 ∧
    (1:Int) < (clipRectI ⟨0, 0, 2, 2⟩ ⟨0, 0, 2, 2⟩).x2 ∧
    effectCopyPhase srcSample dstSample 2 2 ⟨0, 0, 2, 2⟩ 0 1 0
        = srcSample (2 - 0 - 1) 1 2 ∧
    effectCopyPhase srcSample dstSample 2 2 ⟨0, 0, 2, 2⟩ 0 1 2
        = srcSample (2 - 0 - 1) 1 0 := by
  have h := copyOut_pixel_mapping srcSample dstSample 2 2 ⟨0, 0, 2, 2⟩ 0 1
    (by decide) (by decide) (by decide) (by decide) (by decide)
  exact ⟨by decide, by decide, by decide, by decide, by decide, h.1, h.2.2.1⟩

/-- Claim C8: when the render window, already intersected with the
output image bounds by the caller, lies fully outside the painted
rectangle from 0 to width by 0 to occupiedHeight, the adapter writes
nothing: the destination buffer is returned unchanged. -/
theorem copyOut_outside_no_writes (src dst : Image) (width h : Int)
    (rRender : OfxRectI)
    (hout : ∀ y x : Int,
      rRender.y1 ≤ y → y < rRender.y2 → rRender.x1 ≤ x → x < rRender.x2 →
        ¬ (0 ≤ x ∧ x < width ∧ 0 ≤ y ∧ y < h)) :
    effectCopyPhase src dst width h rRender = dst := by
  rw [effectCopyPhase]
  split_ifs with hh
  · funext ya xa c
    simp only [copyOut, clipRectI]
    rw [copyRowsLoop_get, if_neg]
    rintro ⟨h1, h2, h3, h4⟩
    refine hout ya xa (by omega) (by omega) (by omega) (by omega)
      ⟨by omega, by omega, by omega, by omega⟩
  · rfl

theorem copyOut_outside_no_writes_witness :
    effectCopyPhase srcSample dstSample 2 2 ⟨5, 5, 7, 7⟩ = dstSample :=
  copyOut_outside_no_writes srcSample dstSample 2 2 ⟨5, 5, 7, 7⟩
    (by
      intro y x h1 h2 h3 h4
      dsimp only at h1 h2 h3 h4
      rintro ⟨k1, k2, k3, k4⟩
      omega)

/-- Claim C10 is refuted by this concrete run: with the default
configuration (surface 640 by 360, margin 10, timings 1, 15, 1), one
active message whose measured text height is 400 makes render return an
occupied height of 430, strictly larger than the 360 rows the surface
was allocated with; the copy-out of effectRender then starts at source
row h - y1 - 1 = 429 for destination row 0 (the clipped window still
starts at row 0), a row outside the allocated surface. -/
theorem render_height_exceeds_surface :
    (render (flatBackend fun _ _ => 400) oneMsgState 2).result = 430 ∧
    oneMsgState.height = 360 ∧
    oneMsgState.height < (render (flatBackend fun _ _ => 400) oneMsgState 2).result ∧
    (clipRectI ⟨0, 0, 640, 360⟩
        ⟨0, 0, 640, (render (flatBackend fun _ _ => 400) oneMsgState 2).result⟩).y1
      = 0 ∧
    ¬ ((render (flatBackend fun _ _ => 400) oneMsgState 2).result - 0 - 1
        < oneMsgState.height) := by
  have hres : (render (flatBackend fun _ _ => 400) oneMsgState 2).result = 430 := by
    have hact : activeMessages oneMsgState.messages (2 - animWindow oneMsgState) 2
        = [⟨0, "a", "hi"⟩] := by
      norm_num [activeMessages, lowerBoundSuffix, upperBoundTake, oneMsgState,
        animWindow, List.dropWhile_cons, List.takeWhile_cons]
    rw [render]
    simp only [hact, List.isEmpty_cons, Bool.false_eq_true, if_false,
      List.foldl_cons, List.foldl_nil, renderStep]
    norm_num [msgHeightProg, messageAlpha, oneMsgState, flatBackend, cround]
  refine ⟨hres, rfl, ?_, ?_, ?_⟩
  · rw [hres]
    decide
  · rw [hres]
    decide
  · rw [hres]
    decide
